import Mathlib

/-!
Verification of the cookie-challenge pipeline

A shallow embedding of `src/cookieChallenge.js` and `src/client.js` from the
`php-cookie-challenge` repository, together with theorems settling the frozen
claims about the challenge-handling pipeline (detection, extraction, crypto
loading, cookie derivation, retry construction, interceptor orchestration).

Strings are modelled as `List Char`; JavaScript objects with a fixed field set
become structures; promise rejection / `throw` becomes `Except String`; the
injected axios client becomes an oracle record, and the network calls the
pipeline issues are tracked in an explicit event log.
-/

set_option maxRecDepth 100000

namespace CookieChallenge

/-- Prefix test: `startsWithL hay needle` holds when `needle` is a leading segment of
`hay`.  Building block for the substring check. -/
def startsWithL : List Char → List Char → Bool
  | _, [] => true
  | [], _ :: _ => false
  | h :: t, n :: nt => h = n && startsWithL t nt

/-- Models JavaScript `hay.includes(needle)`: contiguous substring test. -/
def jsIncludes (hay needle : List Char) : Bool :=
  startsWithL hay needle ||
    match hay with
    | [] => false
    | _ :: t => jsIncludes t needle

/-- The stringy body of an axios response: either an actual string, or some
non-string value (carrying its JavaScript stringification and truthiness). -/
inductive RespData where
  | str (s : List Char)
  | other (asString : List Char) (truthy : Bool)
deriving DecidableEq

/-- Truthiness of a present `response.data` value (the empty string is falsy). -/
def respDataTruthy : RespData → Bool
  | .str s => !s.isEmpty
  | .other _ t => t

/-- An axios request config (`response.config`): the fields the pipeline
reads or copies.  `data?` is the request body. -/
structure RequestConfig where
  url : Option (List Char)
  baseURL : Option (List Char)
  method : Option (List Char)
  headers : List (List Char × List Char)
  data? : Option (List Char)
deriving DecidableEq

/-- An axios response object: a body (absent models `null`/`undefined`
`response.data`) and the originating request config. -/
structure Response where
  data? : Option RespData
  config : RequestConfig
deriving DecidableEq

/-- The four literal markers the detector looks for. -/
def markerSlowAES : List Char := "slowAES.decrypt".toList
/-- Cookie-name assignment marker. -/
def markerTestCookie : List Char := "__test=".toList
/-- Client-side redirect marker. -/
def markerLocation : List Char := "location.href".toList
/-- Decryption-routine path marker. -/
def markerAesJs : List Char := "/aes.js".toList

/-- Models `detectCookieChallenge(response)` from `src/cookieChallenge.js`
(lines 6–24): `false` on a missing/falsy response or body, else the
conjunction of the four `includes` checks against the body string (a
non-string body is treated as the empty string). -/
def detectCookieChallenge (response : Option Response) : Bool :=
  match response with
  | none => false
  | some r =>
    match r.data? with
    | none => false
    | some d =>
      if respDataTruthy d = false then false
      else
        let data := match d with | .str s => s | .other _ _ => []
        jsIncludes data markerSlowAES && jsIncludes data markerTestCookie &&
          jsIncludes data markerLocation && jsIncludes data markerAesJs

/-- Predicate: `bodyHasMarker r m` states that the response `r` has a string body containing `m`.
A missing/non-string body contains no marker. -/
def bodyHasMarker (r : Option Response) (m : List Char) : Prop :=
  ∃ resp s, r = some resp ∧ resp.data? = some (.str s) ∧ m <:+: s

lemma startsWithL_iff (hay needle : List Char) :
    startsWithL hay needle = true ↔ needle <+: hay := by
  induction hay generalizing needle with
  | nil =>
    cases needle with
    | nil => simp [startsWithL]
    | cons n nt => simp [startsWithL]
  | cons h t ih =>
    cases needle with
    | nil => simp [startsWithL]
    | cons n nt =>
      simp only [startsWithL, Bool.and_eq_true, decide_eq_true_eq, ih]
      constructor
      · rintro ⟨rfl, hpre⟩
        rcases hpre with ⟨rest, hrest⟩
        exact ⟨rest, by simp [hrest]⟩
      · intro hpre
        rcases hpre with ⟨rest, hrest⟩
        injection hrest with h1 h2
        exact ⟨h1.symm, ⟨rest, h2⟩⟩

lemma jsIncludes_iff (hay needle : List Char) :
    jsIncludes hay needle = true ↔ needle <:+: hay := by
  induction hay with
  | nil =>
    rw [jsIncludes]
    simp [startsWithL_iff, List.prefix_nil, List.infix_nil]
  | cons h t ih =>
    rw [jsIncludes]
    simp only [Bool.or_eq_true, startsWithL_iff, ih]
    constructor
    · rintro (hp | hi)
      · exact hp.isInfix
      · exact List.infix_cons hi
    · intro hi
      exact List.infix_cons_iff.mp hi

lemma detect_true_markers (r : Option Response) (h : detectCookieChallenge r = true) :
    ∃ resp s, r = some resp ∧ resp.data? = some (.str s) ∧
      markerSlowAES <:+: s ∧ markerTestCookie <:+: s ∧
        markerLocation <:+: s ∧ markerAesJs <:+: s := by
  rcases r with - | resp
  · simp [detectCookieChallenge] at h
  rcases hd : resp.data? with - | d
  · simp [detectCookieChallenge, hd] at h
  rcases d with s | ⟨a, t⟩
  · cases s with
    | nil => simp [detectCookieChallenge, hd, respDataTruthy] at h
    | cons c rest =>
      simp only [detectCookieChallenge, hd, respDataTruthy, List.isEmpty_cons,
        Bool.not_false, Bool.true_eq_false, if_false, Bool.and_eq_true,
        jsIncludes_iff] at h
      exact ⟨resp, c :: rest, rfl, hd, h.1.1.1, h.1.1.2, h.1.2, h.2⟩
  · cases t with
    | false => simp [detectCookieChallenge, hd, respDataTruthy] at h
    | true =>
      have hje : jsIncludes [] markerSlowAES = false := by decide
      simp [detectCookieChallenge, hd, respDataTruthy, hje] at h

/-- C1.  For a string body, detection is exactly the conjunction of the four
marker-containment facts; and any response missing one marker (in particular
any response without a string body) is classified `false`. -/
theorem detect_iff_four_markers :
    (∀ s : List Char, ∀ cfg : RequestConfig,
      detectCookieChallenge (some ⟨some (.str s), cfg⟩) = true ↔
        (markerSlowAES <:+: s ∧ markerTestCookie <:+: s ∧
          markerLocation <:+: s ∧ markerAesJs <:+: s)) ∧
    (∀ r : Option Response,
      (¬ bodyHasMarker r markerSlowAES ∨ ¬ bodyHasMarker r markerTestCookie ∨
        ¬ bodyHasMarker r markerLocation ∨ ¬ bodyHasMarker r markerAesJs) →
      detectCookieChallenge r = false) := by
  constructor
  · intro s cfg
    constructor
    · intro h
      obtain ⟨resp, s', hr, hd, h1, h2, h3, h4⟩ := detect_true_markers _ h
      injection hr with hr
      subst hr
      simp only at hd
      injection hd with hd
      injection hd with hd
      subst hd
      exact ⟨h1, h2, h3, h4⟩
    · rintro ⟨h1, h2, h3, h4⟩
      cases s with
      | nil =>
        rw [List.infix_nil] at h1
        exact absurd h1 (by decide)
      | cons c rest =>
        simp only [detectCookieChallenge, respDataTruthy, List.isEmpty_cons,
          Bool.not_false, Bool.true_eq_false, if_false, Bool.and_eq_true,
          jsIncludes_iff]
        exact ⟨⟨⟨h1, h2⟩, h3⟩, h4⟩
  · intro r hmiss
    by_contra hne
    have htrue : detectCookieChallenge r = true := by
      cases h : detectCookieChallenge r with
      | false => exact absurd h hne
      | true => rfl
    obtain ⟨resp, s, hr, hd, h1, h2, h3, h4⟩ := detect_true_markers _ htrue
    have hhas : ∀ m, m <:+: s → bodyHasMarker r m := by
      intro m hm
      exact ⟨resp, s, hr, hd, hm⟩
    rcases hmiss with h | h | h | h
    · exact h (hhas _ h1)
    · exact h (hhas _ h2)
    · exact h (hhas _ h3)
    · exact h (hhas _ h4)

/-- Witness for C1 at concrete inputs: a full challenge page classifies
`true`, and a page missing the `slowAES.decrypt` marker classifies `false`. -/
theorem detect_iff_four_markers_witness :
    detectCookieChallenge (some ⟨some (.str ("<html>slowAES.decrypt(c,2,a,b); document.cookie=\"__test=\"+x; location.href=y; src=\"/aes.js\"</html>".toList)), ⟨none, none, none, [], none⟩⟩) = true ∧
    detectCookieChallenge (some ⟨some (.str ("<html>document.cookie=\"__test=\"+x; location.href=y; src=\"/aes.js\"</html>".toList)), ⟨none, none, none, [], none⟩⟩) = false := by
  constructor
  · exact (detect_iff_four_markers.1 _ _).2 (by decide)
  · exact detect_iff_four_markers.2 _ (Or.inl (by
      rintro ⟨resp, s, hr, hs, hin⟩
      injection hr with hr
      subst hr
      simp only at hs
      injection hs with hs
      injection hs with hs
      subst hs
      revert hin
      decide))

/-! ## Hex codec: `toNumbers` / `toHex` (cookieChallenge.js lines 64–83) -/

/-- Value of a hexadecimal digit character, `none` for non-hex characters. -/
def hexVal? (c : Char) : Option Nat :=
  if '0' ≤ c ∧ c ≤ '9' then some (c.toNat - '0'.toNat)
  else if 'a' ≤ c ∧ c ≤ 'f' then some (c.toNat - 'a'.toNat + 10)
  else if 'A' ≤ c ∧ c ≤ 'F' then some (c.toNat - 'A'.toNat + 10)
  else none

/-- Boolean hex-digit test (the character class `[a-fA-F0-9]`). -/
def isHexDigitB (c : Char) : Bool := (hexVal? c).isSome

/-- JavaScript line terminators, which the regex metacharacter `.` does not
match (the `(..)` scan in `toNumbers` skips them). -/
def isLineTerm (c : Char) : Bool :=
  c == '\n' || c == '\r' || c == ' ' || c == ' '

/-- Models `parseInt(pair, 16)` on a two-character chunk.  Faithful for
hexadecimal characters, the only ones that reach it in this codebase (the
extractor only produces `[a-fA-F0-9]` strings); for other characters JS
would yield `NaN`/a partial parse, which this model collapses to digit
value 0. -/
def pairVal (c1 c2 : Char) : Nat := 16 * (hexVal? c1).getD 0 + (hexVal? c2).getD 0

/-- Models `toNumbers(hex)` (lines 64–70): `hex.replace(/(..)/g, cb)` pushes
`parseInt` of each two-character match; a trailing unpaired character is
never matched, and `.` skips line terminators. -/
def toNumbers : List Char → List Nat
  | [] => []
  | [_] => []
  | c1 :: c2 :: rest =>
    if !isLineTerm c1 && !isLineTerm c2 then pairVal c1 c2 :: toNumbers rest
    else toNumbers (c2 :: rest)

/-- Lowercase hexadecimal digit character for a value below 16. -/
def hexDigitCh (n : Nat) : Char :=
  if n < 10 then Char.ofNat ('0'.toNat + n) else Char.ofNat ('a'.toNat + (n - 10))

/-- Fuel-driven base-16 digit expansion (most significant first), mirroring
`Number.prototype.toString(16)` for natural numbers. -/
def natHexAux : Nat → Nat → List Char
  | 0, _ => []
  | fuel + 1, n =>
    if n < 16 then [hexDigitCh n] else natHexAux fuel (n / 16) ++ [hexDigitCh (n % 16)]

/-- Models `n.toString(16)` for a natural `n` (already lowercase). -/
def natToHexChars (n : Nat) : List Char := natHexAux (n + 1) n

/-- Models `toHex(numbers)` (lines 77–83): each number below 16 is padded
with `'0'`, then its base-16 rendering is appended; the final
`toLowerCase()` is the identity on the digits produced for naturals. -/
def toHex : List Nat → List Char
  | [] => []
  | n :: rest =>
    (if n < 16 then '0' :: natToHexChars n else natToHexChars n) ++ toHex rest

lemma natHexAux_small (fuel n : Nat) (hn : n < 16) (hf : 0 < fuel) :
    natHexAux fuel n = [hexDigitCh n] := by
  cases fuel with
  | zero => omega
  | succ f => simp [natHexAux, hn]

lemma byteChars_eq (x : Nat) (hx : x < 256) :
    (if x < 16 then '0' :: natToHexChars x else natToHexChars x) =
      [hexDigitCh (x / 16), hexDigitCh (x % 16)] := by
  by_cases h16 : x < 16
  · rw [if_pos h16]
    rw [natToHexChars, natHexAux_small _ _ h16 (by omega)]
    have hdiv : x / 16 = 0 := Nat.div_eq_of_lt h16
    have hmod : x % 16 = x := Nat.mod_eq_of_lt h16
    rw [hdiv, hmod]
    rfl
  · rw [if_neg h16]
    rw [natToHexChars, natHexAux]
    rw [if_neg h16]
    rw [natHexAux_small _ _ (by omega) (by omega)]
    rfl

lemma hexVal_hexDigitCh (v : Nat) (hv : v < 16) : hexVal? (hexDigitCh v) = some v := by
  revert hv
  revert v
  decide

lemma not_lineTerm_hexDigitCh (v : Nat) (hv : v < 16) :
    isLineTerm (hexDigitCh v) = false := by
  revert hv
  revert v
  decide

lemma not_lineTerm_of_hex (c : Char) (h : isHexDigitB c = true) :
    isLineTerm c = false := by
  by_contra hne
  have hlt : isLineTerm c = true := by
    cases hl : isLineTerm c with
    | false => exact absurd hl hne
    | true => rfl
  have hors : c = '\n' ∨ c = '\r' ∨ c = ' ' ∨ c = ' ' := by
    unfold isLineTerm at hlt
    simp only [Bool.or_eq_true, beq_iff_eq] at hlt
    tauto
  rcases hors with h1 | h1 | h1 | h1 <;> subst h1 <;> exact absurd h (by decide)

lemma toHex_flatMap (b : List Nat) (hb : ∀ x ∈ b, x < 256) :
    toHex b = b.flatMap fun x => [hexDigitCh (x / 16), hexDigitCh (x % 16)] := by
  induction b with
  | nil => rfl
  | cons x rest ih =>
    rw [toHex, byteChars_eq x (hb x (by simp)), List.flatMap_cons,
      ih fun y hy => hb y (by simp [hy])]

lemma toNumbers_toHex (b : List Nat) (hb : ∀ x ∈ b, x < 256) :
    toNumbers (toHex b) = b := by
  induction b with
  | nil => rfl
  | cons x rest ih =>
    have hx : x < 256 := hb x (by simp)
    rw [toHex, byteChars_eq x hx]
    show toNumbers (hexDigitCh (x / 16) :: hexDigitCh (x % 16) :: toHex rest) = x :: rest
    rw [toNumbers]
    rw [not_lineTerm_hexDigitCh _ (by omega), not_lineTerm_hexDigitCh _ (by omega)]
    simp only [Bool.not_false, Bool.and_self, if_pos]
    rw [ih fun y hy => hb y (by simp [hy])]
    congr 1
    unfold pairVal
    rw [hexVal_hexDigitCh _ (by omega), hexVal_hexDigitCh _ (by omega)]
    simp [Nat.div_add_mod]

lemma toNumbers_dropLast :
    ∀ h : List Char, (∀ c ∈ h, isHexDigitB c = true) → h.length % 2 = 1 →
      toNumbers h = toNumbers h.dropLast
  | [], _, hodd => by simp at hodd
  | [c], _, _ => by simp [toNumbers]
  | c1 :: c2 :: rest, hhex, hodd => by
    have hrest : rest.length % 2 = 1 := by
      simp only [List.length_cons] at hodd
      omega
    have hne : rest ≠ [] := by
      intro h0
      rw [h0] at hrest
      simp at hrest
    have hd : (c1 :: c2 :: rest).dropLast = c1 :: c2 :: rest.dropLast := by
      cases rest with
      | nil => exact absurd rfl hne
      | cons r rs => rfl
    rw [hd]
    have h1 := not_lineTerm_of_hex c1 (hhex c1 (by simp))
    have h2 := not_lineTerm_of_hex c2 (hhex c2 (by simp))
    have ih := toNumbers_dropLast rest (fun c hc => hhex c (by simp [hc])) hrest
    simp only [toNumbers, h1, h2, Bool.not_false, Bool.and_self, if_true, ih]

/-- C6.  `toNumbers` inverts `toHex` on byte sequences, `toHex` emits exactly
two lowercase hex characters per byte (zero-padded), and on an odd-length hex
string `toNumbers` silently drops the trailing character. -/
theorem hex_roundtrip_and_odd_drop :
    (∀ b : List Nat, (∀ x ∈ b, x < 256) →
      toNumbers (toHex b) = b ∧
      toHex b = (b.flatMap fun x => [hexDigitCh (x / 16), hexDigitCh (x % 16)]) ∧
      ∀ c ∈ toHex b, isHexDigitB c = true ∧ c.isUpper = false) ∧
    (∀ h : List Char, (∀ c ∈ h, isHexDigitB c = true) → h.length % 2 = 1 →
      toNumbers h = toNumbers h.dropLast) := by
  constructor
  · intro b hb
    refine ⟨toNumbers_toHex b hb, toHex_flatMap b hb, ?_⟩
    intro c hc
    rw [toHex_flatMap b hb] at hc
    rw [List.mem_flatMap] at hc
    obtain ⟨x, hx, hcx⟩ := hc
    have hx256 : x < 256 := hb x hx
    have hlow : ∀ v : Nat, v < 16 →
        isHexDigitB (hexDigitCh v) = true ∧ (hexDigitCh v).isUpper = false := by
      decide
    simp only [List.mem_cons, List.not_mem_nil, or_false] at hcx
    rcases hcx with rfl | rfl
    · exact hlow _ (by omega)
    · exact hlow _ (by omega)
  · exact toNumbers_dropLast

/-- Witness for C6 at concrete inputs: bytes `[0, 15, 255, 16]` round-trip
through `"000fff10"`, and the odd-length hex string `"abc"` decodes like
`"ab"`. -/
theorem hex_roundtrip_and_odd_drop_witness :
    toNumbers (toHex [0, 15, 255, 16]) = [0, 15, 255, 16] ∧
    toNumbers "abc".toList = toNumbers ("abc".toList).dropLast :=
  ⟨(hex_roundtrip_and_odd_drop.1 [0, 15, 255, 16] (by decide)).1,
    hex_roundtrip_and_odd_drop.2 "abc".toList (by decide) (by decide)⟩

/-! ## Extraction: `extractEncryptedValues` (cookieChallenge.js lines 31–57)

The JS function matches the regexes
`/var\s+a\s*=\s*toNumbers\s*\(\s*"([a-fA-F0-9]+)"\s*\)/` (and likewise for
`b`, `c`), falling back to one comma-joined pattern.  The matcher below is a
deterministic left-to-right scan; it agrees with the regex's backtracking
semantics because every repeated class (`\s+`, `\s*`, `[a-fA-F0-9]+`) is
disjoint from the literal character the pattern requires next, so greedy
consumption is the unique way to match. -/

/-- The JavaScript `\s` class: ASCII whitespace plus the Unicode space
separators, line separators and BOM. -/
def isJsSpace (c : Char) : Bool :=
  c == ' ' || c == '\t' || c == '\n' || c == '\r' || c == '\x0b' || c == '\x0c' ||
    c.toNat == 0xa0 || c.toNat == 0x1680 ||
    (0x2000 ≤ c.toNat && c.toNat ≤ 0x200a) ||
    c.toNat == 0x2028 || c.toNat == 0x2029 || c.toNat == 0x202f ||
    c.toNat == 0x205f || c.toNat == 0x3000 || c.toNat == 0xfeff

/-- Match a literal character sequence at the head, returning the remainder. -/
def dropLit : List Char → List Char → Option (List Char)
  | s, [] => some s
  | [], _ :: _ => none
  | h :: t, l :: lt => if h = l then dropLit t lt else none

/-- Whitespace run `\s*`. -/
def eatWs (s : List Char) : List Char := s.dropWhile isJsSpace

/-- Nonempty whitespace run `\s+`. -/
def eatWs1 : List Char → Option (List Char)
  | [] => none
  | c :: rest => if isJsSpace c then some (rest.dropWhile isJsSpace) else none

/-- A single literal character. -/
def eatChar (c : Char) : List Char → Option (List Char)
  | [] => none
  | x :: rest => if x = c then some rest else none

/-- Greedy nonempty capture of hex characters, `([a-fA-F0-9]+)`. -/
def eatHexRun (s : List Char) : Option (List Char × List Char) :=
  match s.takeWhile isHexDigitB with
  | [] => none
  | c :: cs => some (c :: cs, s.dropWhile isHexDigitB)

/-- The literal `var`. -/
def litVar : List Char := ['v', 'a', 'r']

/-- The literal `toNumbers`. -/
def litToNumbers : List Char := ['t', 'o', 'N', 'u', 'm', 'b', 'e', 'r', 's']

/-- One anchored attempt of
`var\s+v\s*=\s*toNumbers\s*\(\s*"([a-fA-F0-9]+)"\s*\)`; yields the capture
and the remainder after the closing parenthesis. -/
def tryVarCore (v : Char) (s : List Char) : Option (List Char × List Char) :=
  (dropLit s litVar).bind fun s1 =>
  (eatWs1 s1).bind fun s2 =>
  (eatChar v s2).bind fun s3 =>
  (eatChar '=' (eatWs s3)).bind fun s4 =>
  (dropLit (eatWs s4) litToNumbers).bind fun s5 =>
  (eatChar '(' (eatWs s5)).bind fun s6 =>
  (eatChar '"' (eatWs s6)).bind fun s7 =>
  (eatHexRun s7).bind fun p =>
  (eatChar '"' p.2).bind fun s9 =>
  (eatChar ')' (eatWs s9)).bind fun s10 =>
  some (p.1, s10)

/-- The continuation `\s*,\s*v\s*=\s*toNumbers\s*\(\s*"([a-fA-F0-9]+)"\s*\)`
of the comma-joined pattern. -/
def tryCont (v : Char) (s : List Char) : Option (List Char × List Char) :=
  (eatChar ',' (eatWs s)).bind fun s1 =>
  (eatChar v (eatWs s1)).bind fun s2 =>
  (eatChar '=' (eatWs s2)).bind fun s3 =>
  (dropLit (eatWs s3) litToNumbers).bind fun s4 =>
  (eatChar '(' (eatWs s4)).bind fun s5 =>
  (eatChar '"' (eatWs s5)).bind fun s6 =>
  (eatHexRun s6).bind fun p =>
  (eatChar '"' p.2).bind fun s8 =>
  (eatChar ')' (eatWs s8)).bind fun s9 =>
  some (p.1, s9)

/-- One anchored attempt of the comma-joined alternative pattern
(`var a=…, b=…, c=…` in one declaration). -/
def tryAll (s : List Char) : Option (List Char × List Char × List Char) :=
  (tryVarCore 'a' s).bind fun pa =>
  (tryCont 'b' pa.2).bind fun pb =>
  (tryCont 'c' pb.2).bind fun pc =>
  some (pa.1, pb.1, pc.1)

/-- Models `html.match` with the per-variable regex: leftmost match, returning capture 1. -/
def findVar (v : Char) : List Char → Option (List Char)
  | [] => none
  | c :: rest =>
    match tryVarCore v (c :: rest) with
    | some p => some p.1
    | none => findVar v rest

/-- Models `html.match` with the comma-joined regex: leftmost match of the alternative
pattern, returning the three captures. -/
def findAll : List Char → Option (List Char × List Char × List Char)
  | [] => none
  | c :: rest =>
    match tryAll (c :: rest) with
    | some t => some t
    | none => findAll rest

/-- Models `extractEncryptedValues(html)`: the three per-variable matches,
with the comma-joined pattern as fallback when any individual match is
missing, and `null` when that also fails. -/
def extractEncryptedValues (html : List Char) :
    Option (List Char × List Char × List Char) :=
  let aM := findVar 'a' html
  let bM := findVar 'b' html
  let cM := findVar 'c' html
  if aM.isNone || bM.isNone || cM.isNone then
    findAll html
  else
    match aM, bM, cM with
    | some a, some b, some c => some (a, b, c)
    | _, _, _ => none

/-- The text `var v=toNumbers("cap")` followed by `rest`. -/
def decl (v : Char) (cap rest : List Char) : List Char :=
  'v' :: 'a' :: 'r' :: ' '::v :: '=' :: 't' :: 'o' :: 'N' :: 'u' :: 'm' :: 'b' :: 'e' :: 'r' :: 's' :: '(' :: '"'::
    (cap ++ '"' :: ')'::rest)

/-- The text `,v=toNumbers("cap")` followed by `rest`. -/
def contDecl (v : Char) (cap rest : List Char) : List Char :=
  ','::v :: '=' :: 't' :: 'o' :: 'N' :: 'u' :: 'm' :: 'b' :: 'e' :: 'r' :: 's' :: '(' :: '"'::
    (cap ++ '"' :: ')'::rest)

/-- A challenge body with three separate declaration statements. -/
def multiBody (ha hb hc : List Char) : List Char :=
  decl 'a' ha (';' :: '\n'::decl 'b' hb (';' :: '\n'::decl 'c' hc (';'::[])))

/-- A challenge body with one comma-joined declaration statement. -/
def singleBody (ha hb hc : List Char) : List Char :=
  decl 'a' ha (contDecl 'b' hb (contDecl 'c' hc (';'::[])))

/-- Sanity: the two body builders produce exactly the two documented surface
layouts. -/
lemma body_builders_text :
    multiBody ['1'] ['2'] ['3'] =
        "var a=toNumbers(\"1\");\nvar b=toNumbers(\"2\");\nvar c=toNumbers(\"3\");".toList ∧
      singleBody ['1'] ['2'] ['3'] =
        "var a=toNumbers(\"1\"),b=toNumbers(\"2\"),c=toNumbers(\"3\");".toList := by
  decide

/-- A captured value: nonempty, all hex characters. -/
def hexStr (l : List Char) : Prop :=
  l ≠ [] ∧ ∀ c ∈ l, isHexDigitB c = true

lemma hex_ne_v {c : Char} (h : isHexDigitB c = true) : c ≠ 'v' := by
  intro hc
  subst hc
  exact absurd h (by decide)

lemma takeWhile_append_all (p : Char → Bool) (l r : List Char)
    (h : ∀ c ∈ l, p c = true) : (l ++ r).takeWhile p = l ++ r.takeWhile p := by
  induction l with
  | nil => simp
  | cons c t ih =>
    simp [List.takeWhile_cons, h c (by simp), ih fun x hx => h x (by simp [hx])]

lemma dropWhile_append_all (p : Char → Bool) (l r : List Char)
    (h : ∀ c ∈ l, p c = true) : (l ++ r).dropWhile p = r.dropWhile p := by
  induction l with
  | nil => simp
  | cons c t ih =>
    simp [List.dropWhile_cons, h c (by simp), ih fun x hx => h x (by simp [hx])]

lemma eatHexRun_append (cap r : List Char) (hne : cap ≠ [])
    (hcap : ∀ c ∈ cap, isHexDigitB c = true)
    (hr : ∀ c ∈ r.head?, isHexDigitB c = false) :
    eatHexRun (cap ++ r) = some (cap, r) := by
  obtain ⟨c0, rest0, hc0⟩ : ∃ c0 rest0, cap = c0 :: rest0 := by
    cases cap with
    | nil => exact absurd rfl hne
    | cons x xs => exact ⟨x, xs, rfl⟩
  have ht : (cap ++ r).takeWhile isHexDigitB = cap ++ r.takeWhile isHexDigitB :=
    takeWhile_append_all _ _ _ hcap
  have hd : (cap ++ r).dropWhile isHexDigitB = r.dropWhile isHexDigitB :=
    dropWhile_append_all _ _ _ hcap
  have hrt : r.takeWhile isHexDigitB = [] := by
    cases r with
    | nil => rfl
    | cons x xs =>
      have := hr x (by simp)
      simp [List.takeWhile_cons, this]
  have hrd : r.dropWhile isHexDigitB = r := by
    cases r with
    | nil => rfl
    | cons x xs =>
      have := hr x (by simp)
      simp [List.dropWhile_cons, this]
  unfold eatHexRun
  rw [ht, hrt, List.append_nil, hd, hrd, hc0]

lemma tryVarCore_head (v : Char) (hv : isJsSpace v = false) (cap r : List Char)
    (hne : cap ≠ []) (hcap : ∀ c ∈ cap, isHexDigitB c = true) :
    tryVarCore v (decl v cap r) = some (cap, r) := by
  show tryVarCore v
    ('v' :: 'a' :: 'r' :: ' '::v :: '=' :: 't' :: 'o' :: 'N' :: 'u' :: 'm' :: 'b' :: 'e' :: 'r' :: 's' :: '(' :: '"'::
      (cap ++ '"' :: ')'::r)) = some (cap, r)
  unfold tryVarCore
  rw [show dropLit ('v' :: 'a' :: 'r' :: ' '::v :: '=' :: 't' :: 'o' :: 'N' :: 'u' :: 'm' :: 'b' :: 'e' :: 'r' :: 's' :: '(' :: '"'::(cap ++ '"' :: ')'::r)) litVar
      = some (' '::v :: '=' :: 't' :: 'o' :: 'N' :: 'u' :: 'm' :: 'b' :: 'e' :: 'r' :: 's' :: '(' :: '"'::(cap ++ '"' :: ')'::r)) from rfl]
  rw [Option.some_bind]
  rw [show eatWs1 (' '::v :: '=' :: 't' :: 'o' :: 'N' :: 'u' :: 'm' :: 'b' :: 'e' :: 'r' :: 's' :: '(' :: '"'::(cap ++ '"' :: ')'::r))
      = some (List.dropWhile isJsSpace (v :: '=' :: 't' :: 'o' :: 'N' :: 'u' :: 'm' :: 'b' :: 'e' :: 'r' :: 's' :: '(' :: '"'::(cap ++ '"' :: ')'::r))) from rfl]
  rw [Option.some_bind]
  rw [show List.dropWhile isJsSpace (v :: '=' :: 't' :: 'o' :: 'N' :: 'u' :: 'm' :: 'b' :: 'e' :: 'r' :: 's' :: '(' :: '"'::(cap ++ '"' :: ')'::r))
      = v :: '=' :: 't' :: 'o' :: 'N' :: 'u' :: 'm' :: 'b' :: 'e' :: 'r' :: 's' :: '(' :: '"'::(cap ++ '"' :: ')'::r) by
    simp [List.dropWhile, hv]]
  rw [show eatChar v (v :: '=' :: 't' :: 'o' :: 'N' :: 'u' :: 'm' :: 'b' :: 'e' :: 'r' :: 's' :: '(' :: '"'::(cap ++ '"' :: ')'::r))
      = some ('=' :: 't' :: 'o' :: 'N' :: 'u' :: 'm' :: 'b' :: 'e' :: 'r' :: 's' :: '(' :: '"'::(cap ++ '"' :: ')'::r)) by
    simp [eatChar]]
  rw [Option.some_bind]
  rw [show eatChar '=' (eatWs ('=' :: 't' :: 'o' :: 'N' :: 'u' :: 'm' :: 'b' :: 'e' :: 'r' :: 's' :: '(' :: '"'::(cap ++ '"' :: ')'::r)))
      = some ('t' :: 'o' :: 'N' :: 'u' :: 'm' :: 'b' :: 'e' :: 'r' :: 's' :: '(' :: '"'::(cap ++ '"' :: ')'::r)) from rfl]
  rw [Option.some_bind]
  rw [show dropLit (eatWs ('t' :: 'o' :: 'N' :: 'u' :: 'm' :: 'b' :: 'e' :: 'r' :: 's' :: '(' :: '"'::(cap ++ '"' :: ')'::r))) litToNumbers
      = some ('(' :: '"'::(cap ++ '"' :: ')'::r)) from rfl]
  rw [Option.some_bind]
  rw [show eatChar '(' (eatWs ('(' :: '"'::(cap ++ '"' :: ')'::r))) = some ('"'::(cap ++ '"' :: ')'::r)) from rfl]
  rw [Option.some_bind]
  rw [show eatChar '"' (eatWs ('"'::(cap ++ '"' :: ')'::r))) = some (cap ++ '"' :: ')'::r) from rfl]
  rw [Option.some_bind]
  rw [eatHexRun_append cap ('"' :: ')'::r) hne hcap (by intro c hc; simp at hc; subst hc; rfl)]
  rw [Option.some_bind]
  rw [show eatChar '"' ('"' :: ')'::r) = some (')'::r) from rfl]
  rw [Option.some_bind]
  rw [show eatChar ')' (eatWs (')'::r)) = some r from ?_]
  · rw [Option.some_bind]
  · show eatChar ')' (List.dropWhile isJsSpace (')'::r)) = some r
    rw [show List.dropWhile isJsSpace (')'::r) = ')'::r by simp [List.dropWhile]; rfl]
    rfl

lemma tryCont_head (v : Char) (hv : isJsSpace v = false) (cap r : List Char)
    (hne : cap ≠ []) (hcap : ∀ c ∈ cap, isHexDigitB c = true) :
    tryCont v (contDecl v cap r) = some (cap, r) := by
  show tryCont v
    (','::v :: '=' :: 't' :: 'o' :: 'N' :: 'u' :: 'm' :: 'b' :: 'e' :: 'r' :: 's' :: '(' :: '"'::
      (cap ++ '"' :: ')'::r)) = some (cap, r)
  unfold tryCont
  rw [show eatChar ',' (eatWs (','::v :: '=' :: 't' :: 'o' :: 'N' :: 'u' :: 'm' :: 'b' :: 'e' :: 'r' :: 's' :: '(' :: '"'::(cap ++ '"' :: ')'::r)))
      = some (v :: '=' :: 't' :: 'o' :: 'N' :: 'u' :: 'm' :: 'b' :: 'e' :: 'r' :: 's' :: '(' :: '"'::(cap ++ '"' :: ')'::r)) from rfl]
  rw [Option.some_bind]
  rw [show eatWs (v :: '=' :: 't' :: 'o' :: 'N' :: 'u' :: 'm' :: 'b' :: 'e' :: 'r' :: 's' :: '(' :: '"'::(cap ++ '"' :: ')'::r))
      = v :: '=' :: 't' :: 'o' :: 'N' :: 'u' :: 'm' :: 'b' :: 'e' :: 'r' :: 's' :: '(' :: '"'::(cap ++ '"' :: ')'::r) by
    show List.dropWhile isJsSpace _ = _
    simp [List.dropWhile, hv]]
  rw [show eatChar v (v :: '=' :: 't' :: 'o' :: 'N' :: 'u' :: 'm' :: 'b' :: 'e' :: 'r' :: 's' :: '(' :: '"'::(cap ++ '"' :: ')'::r))
      = some ('=' :: 't' :: 'o' :: 'N' :: 'u' :: 'm' :: 'b' :: 'e' :: 'r' :: 's' :: '(' :: '"'::(cap ++ '"' :: ')'::r)) by
    simp [eatChar]]
  rw [Option.some_bind]
  rw [show eatChar '=' (eatWs ('=' :: 't' :: 'o' :: 'N' :: 'u' :: 'm' :: 'b' :: 'e' :: 'r' :: 's' :: '(' :: '"'::(cap ++ '"' :: ')'::r)))
      = some ('t' :: 'o' :: 'N' :: 'u' :: 'm' :: 'b' :: 'e' :: 'r' :: 's' :: '(' :: '"'::(cap ++ '"' :: ')'::r)) from rfl]
  rw [Option.some_bind]
  rw [show dropLit (eatWs ('t' :: 'o' :: 'N' :: 'u' :: 'm' :: 'b' :: 'e' :: 'r' :: 's' :: '(' :: '"'::(cap ++ '"' :: ')'::r))) litToNumbers
      = some ('(' :: '"'::(cap ++ '"' :: ')'::r)) from rfl]
  rw [Option.some_bind]
  rw [show eatChar '(' (eatWs ('(' :: '"'::(cap ++ '"' :: ')'::r))) = some ('"'::(cap ++ '"' :: ')'::r)) from rfl]
  rw [Option.some_bind]
  rw [show eatChar '"' (eatWs ('"'::(cap ++ '"' :: ')'::r))) = some (cap ++ '"' :: ')'::r) from rfl]
  rw [Option.some_bind]
  rw [eatHexRun_append cap ('"' :: ')'::r) hne hcap (by intro c hc; simp at hc; subst hc; rfl)]
  rw [Option.some_bind]
  rw [show eatChar '"' ('"' :: ')'::r) = some (')'::r) from rfl]
  rw [Option.some_bind]
  rw [show eatChar ')' (eatWs (')'::r)) = some r from ?_]
  · rw [Option.some_bind]
  · show eatChar ')' (List.dropWhile isJsSpace (')'::r)) = some r
    rw [show List.dropWhile isJsSpace (')'::r) = ')'::r by simp [List.dropWhile]; rfl]
    rfl

lemma tryVarCore_not_v (v c : Char) (rest : List Char) (hc : c ≠ 'v') :
    tryVarCore v (c :: rest) = none := by
  unfold tryVarCore
  rw [show dropLit (c :: rest) litVar = none by simp [dropLit, litVar, hc]]
  rfl

lemma tryVarCore_other (v w : Char) (hw : isJsSpace w = false) (hne : w ≠ v)
    (cap r : List Char) : tryVarCore v (decl w cap r) = none := by
  show tryVarCore v
    ('v' :: 'a' :: 'r' :: ' '::w :: '=' :: 't' :: 'o' :: 'N' :: 'u' :: 'm' :: 'b' :: 'e' :: 'r' :: 's' :: '(' :: '"'::
      (cap ++ '"' :: ')'::r)) = none
  unfold tryVarCore
  rw [show dropLit ('v' :: 'a' :: 'r' :: ' '::w :: '=' :: 't' :: 'o' :: 'N' :: 'u' :: 'm' :: 'b' :: 'e' :: 'r' :: 's' :: '(' :: '"'::(cap ++ '"' :: ')'::r)) litVar
      = some (' '::w :: '=' :: 't' :: 'o' :: 'N' :: 'u' :: 'm' :: 'b' :: 'e' :: 'r' :: 's' :: '(' :: '"'::(cap ++ '"' :: ')'::r)) from rfl]
  rw [Option.some_bind]
  rw [show eatWs1 (' '::w :: '=' :: 't' :: 'o' :: 'N' :: 'u' :: 'm' :: 'b' :: 'e' :: 'r' :: 's' :: '(' :: '"'::(cap ++ '"' :: ')'::r))
      = some (List.dropWhile isJsSpace (w :: '=' :: 't' :: 'o' :: 'N' :: 'u' :: 'm' :: 'b' :: 'e' :: 'r' :: 's' :: '(' :: '"'::(cap ++ '"' :: ')'::r))) from rfl]
  rw [Option.some_bind]
  rw [show List.dropWhile isJsSpace (w :: '=' :: 't' :: 'o' :: 'N' :: 'u' :: 'm' :: 'b' :: 'e' :: 'r' :: 's' :: '(' :: '"'::(cap ++ '"' :: ')'::r))
      = w :: '=' :: 't' :: 'o' :: 'N' :: 'u' :: 'm' :: 'b' :: 'e' :: 'r' :: 's' :: '(' :: '"'::(cap ++ '"' :: ')'::r) by
    simp [List.dropWhile, hw]]
  rw [show eatChar v (w :: '=' :: 't' :: 'o' :: 'N' :: 'u' :: 'm' :: 'b' :: 'e' :: 'r' :: 's' :: '(' :: '"'::(cap ++ '"' :: ')'::r)) = none by
    simp [eatChar, hne]]
  rfl

lemma findVar_cons_some (v c : Char) (rest : List Char) (p : List Char × List Char)
    (h : tryVarCore v (c :: rest) = some p) : findVar v (c :: rest) = some p.1 := by
  simp [findVar, h]

lemma findVar_cons_none (v c : Char) (rest : List Char)
    (h : tryVarCore v (c :: rest) = none) : findVar v (c :: rest) = findVar v rest := by
  simp [findVar, h]

lemma findVar_skip (v : Char) (l r : List Char) (hl : ∀ c ∈ l, c ≠ 'v') :
    findVar v (l ++ r) = findVar v r := by
  induction l with
  | nil => simp
  | cons c t ih =>
    rw [List.cons_append,
      findVar_cons_none v c (t ++ r) (tryVarCore_not_v v c _ (hl c (by simp)))]
    exact ih fun x hx => hl x (by simp [hx])

lemma findVar_none (v : Char) (l : List Char) (hl : ∀ c ∈ l, c ≠ 'v') :
    findVar v l = none := by
  have h := findVar_skip v l [] hl
  rw [List.append_nil] at h
  rw [h]
  rfl

lemma findAll_cons_some (c : Char) (rest : List Char)
    (t : List Char × List Char × List Char) (h : tryAll (c :: rest) = some t) :
    findAll (c :: rest) = some t := by
  simp [findAll, h]

lemma findVar_a_multi (ha hb hc : List Char) (hne : ha ≠ [])
    (hhex : ∀ c ∈ ha, isHexDigitB c = true) :
    findVar 'a' (multiBody ha hb hc) = some ha :=
  findVar_cons_some 'a' 'v' _ _ (tryVarCore_head 'a' (by decide) ha _ hne hhex)

lemma findVar_a_single (ha hb hc : List Char) (hne : ha ≠ [])
    (hhex : ∀ c ∈ ha, isHexDigitB c = true) :
    findVar 'a' (singleBody ha hb hc) = some ha :=
  findVar_cons_some 'a' 'v' _ _ (tryVarCore_head 'a' (by decide) ha _ hne hhex)

lemma findVar_b_multi (ha hb hc : List Char) (hahex : ∀ c ∈ ha, isHexDigitB c = true)
    (hbne : hb ≠ []) (hbhex : ∀ c ∈ hb, isHexDigitB c = true) :
    findVar 'b' (multiBody ha hb hc) = some hb := by
  show findVar 'b'
    ('v'::('a' :: 'r' :: ' ' :: 'a' :: '=' :: 't' :: 'o' :: 'N' :: 'u' :: 'm' :: 'b' :: 'e' :: 'r' :: 's' :: '(' :: '"'::
      (ha ++ '"' :: ')' :: ';' :: '\n'::decl 'b' hb (';' :: '\n'::decl 'c' hc (';'::[]))))) = some hb
  rw [findVar_cons_none 'b' 'v' _ (tryVarCore_other 'b' 'a' (by decide) (by decide) _ _)]
  show findVar 'b'
    ((['a','r',' ','a','=','t','o','N','u','m','b','e','r','s','(','"'] : List Char) ++
      (ha ++ ((['"',')',';','\n'] : List Char) ++
        decl 'b' hb (';' :: '\n'::decl 'c' hc (';'::[]))))) = some hb
  rw [findVar_skip 'b' _ _ (by decide)]
  rw [findVar_skip 'b' ha _ fun c hc => hex_ne_v (hahex c hc)]
  rw [findVar_skip 'b' _ _ (by decide)]
  exact findVar_cons_some 'b' 'v' _ _ (tryVarCore_head 'b' (by decide) hb _ hbne hbhex)

lemma findVar_c_multi (ha hb hc : List Char) (hahex : ∀ c ∈ ha, isHexDigitB c = true)
    (hbhex : ∀ c ∈ hb, isHexDigitB c = true)
    (hcne : hc ≠ []) (hchex : ∀ c ∈ hc, isHexDigitB c = true) :
    findVar 'c' (multiBody ha hb hc) = some hc := by
  show findVar 'c'
    ('v'::('a' :: 'r' :: ' ' :: 'a' :: '=' :: 't' :: 'o' :: 'N' :: 'u' :: 'm' :: 'b' :: 'e' :: 'r' :: 's' :: '(' :: '"'::
      (ha ++ '"' :: ')' :: ';' :: '\n'::decl 'b' hb (';' :: '\n'::decl 'c' hc (';'::[]))))) = some hc
  rw [findVar_cons_none 'c' 'v' _ (tryVarCore_other 'c' 'a' (by decide) (by decide) _ _)]
  show findVar 'c'
    ((['a','r',' ','a','=','t','o','N','u','m','b','e','r','s','(','"'] : List Char) ++
      (ha ++ ((['"',')',';','\n'] : List Char) ++
        decl 'b' hb (';' :: '\n'::decl 'c' hc (';'::[]))))) = some hc
  rw [findVar_skip 'c' _ _ (by decide)]
  rw [findVar_skip 'c' ha _ fun c hc => hex_ne_v (hahex c hc)]
  rw [findVar_skip 'c' _ _ (by decide)]
  show findVar 'c'
    ('v'::('a' :: 'r' :: ' ' :: 'b' :: '=' :: 't' :: 'o' :: 'N' :: 'u' :: 'm' :: 'b' :: 'e' :: 'r' :: 's' :: '(' :: '"'::
      (hb ++ '"' :: ')' :: ';' :: '\n'::decl 'c' hc (';'::[])))) = some hc
  rw [findVar_cons_none 'c' 'v' _ (tryVarCore_other 'c' 'b' (by decide) (by decide) _ _)]
  show findVar 'c'
    ((['a','r',' ','b','=','t','o','N','u','m','b','e','r','s','(','"'] : List Char) ++
      (hb ++ ((['"',')',';','\n'] : List Char) ++ decl 'c' hc (';'::[])))) = some hc
  rw [findVar_skip 'c' _ _ (by decide)]
  rw [findVar_skip 'c' hb _ fun c hc => hex_ne_v (hbhex c hc)]
  rw [findVar_skip 'c' _ _ (by decide)]
  exact findVar_cons_some 'c' 'v' _ _ (tryVarCore_head 'c' (by decide) hc _ hcne hchex)

lemma findVar_single_none (v : Char) (hv : v ≠ 'a') (ha hb hc : List Char)
    (hahex : ∀ c ∈ ha, isHexDigitB c = true) (hbhex : ∀ c ∈ hb, isHexDigitB c = true)
    (hchex : ∀ c ∈ hc, isHexDigitB c = true) :
    findVar v (singleBody ha hb hc) = none := by
  show findVar v
    ('v'::('a' :: 'r' :: ' ' :: 'a' :: '=' :: 't' :: 'o' :: 'N' :: 'u' :: 'm' :: 'b' :: 'e' :: 'r' :: 's' :: '(' :: '"'::
      (ha ++ '"' :: ')'::contDecl 'b' hb (contDecl 'c' hc (';'::[]))))) = none
  rw [findVar_cons_none v 'v' _
    (tryVarCore_other v 'a' (by decide) (Ne.symm hv) _ _)]
  refine findVar_none v
    ((['a','r',' ','a','=','t','o','N','u','m','b','e','r','s','(','"'] : List Char) ++
      (ha ++ ((['"',')',',','b','=','t','o','N','u','m','b','e','r','s','(','"'] : List Char) ++
        (hb ++ ((['"',')',',','c','=','t','o','N','u','m','b','e','r','s','(','"'] : List Char) ++
          (hc ++ (['"',')',';'] : List Char))))))) ?_
  intro c hcmem
  simp only [List.mem_append] at hcmem
  rcases hcmem with h | h | h | h | h | h | h
  · revert h; revert c; decide
  · exact hex_ne_v (hahex c h)
  · revert h; revert c; decide
  · exact hex_ne_v (hbhex c h)
  · revert h; revert c; decide
  · exact hex_ne_v (hchex c h)
  · revert h; revert c; decide

lemma tryAll_single (ha hb hc : List Char)
    (hane : ha ≠ []) (hahex : ∀ c ∈ ha, isHexDigitB c = true)
    (hbne : hb ≠ []) (hbhex : ∀ c ∈ hb, isHexDigitB c = true)
    (hcne : hc ≠ []) (hchex : ∀ c ∈ hc, isHexDigitB c = true) :
    tryAll (singleBody ha hb hc) = some (ha, hb, hc) := by
  have h1 : tryVarCore 'a' (decl 'a' ha (contDecl 'b' hb (contDecl 'c' hc (';'::[])))) =
      some (ha, contDecl 'b' hb (contDecl 'c' hc (';'::[]))) :=
    tryVarCore_head 'a' (by decide) _ _ hane hahex
  have h2 : tryCont 'b' (contDecl 'b' hb (contDecl 'c' hc (';'::[]))) =
      some (hb, contDecl 'c' hc (';'::[])) :=
    tryCont_head 'b' (by decide) _ _ hbne hbhex
  have h3 : tryCont 'c' (contDecl 'c' hc (';'::[])) = some (hc, ';'::[]) :=
    tryCont_head 'c' (by decide) _ _ hcne hchex
  show tryAll (decl 'a' ha (contDecl 'b' hb (contDecl 'c' hc (';'::[])))) = some (ha, hb, hc)
  simp only [tryAll, h1, h2, h3, Option.some_bind]

lemma extract_multi (ha hb hc : List Char)
    (hane : ha ≠ []) (hahex : ∀ c ∈ ha, isHexDigitB c = true)
    (hbne : hb ≠ []) (hbhex : ∀ c ∈ hb, isHexDigitB c = true)
    (hcne : hc ≠ []) (hchex : ∀ c ∈ hc, isHexDigitB c = true) :
    extractEncryptedValues (multiBody ha hb hc) = some (ha, hb, hc) := by
  have h1 := findVar_a_multi ha hb hc hane hahex
  have h2 := findVar_b_multi ha hb hc hahex hbne hbhex
  have h3 := findVar_c_multi ha hb hc hahex hbhex hcne hchex
  simp [extractEncryptedValues, h1, h2, h3]

lemma extract_single (ha hb hc : List Char)
    (hane : ha ≠ []) (hahex : ∀ c ∈ ha, isHexDigitB c = true)
    (hbne : hb ≠ []) (hbhex : ∀ c ∈ hb, isHexDigitB c = true)
    (hcne : hc ≠ []) (hchex : ∀ c ∈ hc, isHexDigitB c = true) :
    extractEncryptedValues (singleBody ha hb hc) = some (ha, hb, hc) := by
  have h2 := findVar_single_none 'b' (by decide) ha hb hc hahex hbhex hchex
  have hAll : findAll (singleBody ha hb hc) = some (ha, hb, hc) :=
    findAll_cons_some 'v' _ _ (tryAll_single ha hb hc hane hahex hbne hbhex hcne hchex)
  simp [extractEncryptedValues, h2, hAll]

/-- C7.  The two documented surface layouts (three statements vs. one
comma-joined declaration) extract to the identical triple; and whenever a
per-variable match is missing and the comma-joined fallback also fails to
match, extraction returns `none` rather than any partial result. -/
theorem extract_two_layouts_agree :
    (∀ ha hb hc : List Char, hexStr ha → hexStr hb → hexStr hc →
      extractEncryptedValues (multiBody ha hb hc) = some (ha, hb, hc) ∧
        extractEncryptedValues (singleBody ha hb hc) = some (ha, hb, hc)) ∧
    (∀ html : List Char,
      (findVar 'a' html = none ∨ findVar 'b' html = none ∨ findVar 'c' html = none) →
      findAll html = none → extractEncryptedValues html = none) := by
  constructor
  · rintro ha hb hc ⟨hane, hahex⟩ ⟨hbne, hbhex⟩ ⟨hcne, hchex⟩
    exact ⟨extract_multi ha hb hc hane hahex hbne hbhex hcne hchex,
      extract_single ha hb hc hane hahex hbne hbhex hcne hchex⟩
  · intro html hmiss hall
    unfold extractEncryptedValues
    rcases hmiss with h | h | h
    · simp [h, hall]
    · simp [h, hall]
    · simp [h, hall]

/-- Witness for C7 at concrete captures (the hex values of the documented
challenge instance) and a concrete non-matching body. -/
theorem extract_two_layouts_agree_witness :
    extractEncryptedValues (multiBody "f655".toList "9834".toList "fdd9".toList) =
        some ("f655".toList, "9834".toList, "fdd9".toList) ∧
      extractEncryptedValues (singleBody "f655".toList "9834".toList "fdd9".toList) =
        some ("f655".toList, "9834".toList, "fdd9".toList) ∧
      extractEncryptedValues "<html>no declarations here</html>".toList = none := by
  refine ⟨(extract_two_layouts_agree.1 _ _ _ ?_ ?_ ?_).1,
    (extract_two_layouts_agree.1 _ _ _ ?_ ?_ ?_).2,
    extract_two_layouts_agree.2 _ ?_ ?_⟩
  · exact ⟨by decide, by decide⟩
  · exact ⟨by decide, by decide⟩
  · exact ⟨by decide, by decide⟩
  · exact ⟨by decide, by decide⟩
  · exact ⟨by decide, by decide⟩
  · exact ⟨by decide, by decide⟩
  · exact Or.inl (by decide)
  · decide

/-! ## The injected client, fetched scripts, and the crypto loader
(cookieChallenge.js lines 91–119) -/

/-- A decrypt capability: `decrypt(ciphertext, mode, key, iv)`. -/
def DecFn : Type := List Nat → Nat → List Nat → List Nat → List Nat

/-- The `modeOfOperation` sub-object, which may carry a `decrypt` function. -/
structure ModeOfOperation where
  decrypt? : Option DecFn

/-- A `slowAES`-like object as the pipeline observes it: an optional direct
`decrypt` function and an optional `modeOfOperation` sub-object. -/
structure SlowObj where
  decrypt? : Option DecFn
  modeOfOperation? : Option ModeOfOperation

/-- The fresh `{}` object `loadSlowAES` passes as the `slowAES` parameter. -/
def emptySlowObj : SlowObj := ⟨none, none⟩

/-- A fetched script, modelled by its two observable effects under
`new Function('slowAES', code)`: the value the wrapper returns (the ternary
`typeof slowAES !== 'undefined' ? slowAES : {}`; an eval-time throw is an
`error`), and the state of the passed-in parameter object after the call —
`{}` unless the script mutates its `slowAES` parameter, since a script
declaring its own `var slowAES = …` rebinds the parameter and leaves the
caller's object untouched. -/
structure Script where
  runResult : Except (List Char) SlowObj
  paramAfter : SlowObj

/-- The injected axios client: the configured default `baseURL`, the GET of
the well-known `/aes.js` path (as a function of the base URL passed to it),
and the generic request capability. -/
structure Client where
  defaultsBaseURL : Option (List Char)
  getScript : List Char → Except (List Char) Script
  request : RequestConfig → Except (List Char) Response

/-- A network call issued by the pipeline. -/
inductive CallEv where
  | getAes (baseURL : List Char)
  | request (cfg : RequestConfig)
deriving DecidableEq

/-- Models `loadSlowAES(client, baseURL)` (lines 91–119): fetch `/aes.js`,
evaluate it against a fresh empty object, and return the result when it has
a direct `decrypt` function, else the (possibly mutated) parameter object;
any error raised inside the `try` is rewrapped as
`Failed to load slowAES: …`. -/
def loadSlowAES (client : Client) (baseURL : List Char) :
    Except (List Char) SlowObj × List CallEv :=
  (match client.getScript baseURL with
   | .error e => .error ("Failed to load slowAES: ".toList ++ e)
   | .ok script =>
     match script.runResult with
     | .error e => .error ("Failed to load slowAES: ".toList ++ e)
     | .ok result =>
       if result.decrypt?.isSome then .ok result else .ok script.paramAfter,
   [.getAes baseURL])

/-- An object offers a decrypt capability under either accepted shape. -/
def usableCrypto (s : SlowObj) : Bool :=
  s.decrypt?.isSome ||
    (match s.modeOfOperation? with
     | some m => m.decrypt?.isSome
     | none => false)

/-- The decrypt dispatch of `processCookieChallenge` (lines 168–175):
direct `decrypt` first, then `modeOfOperation.decrypt`, with mode 2 (CBC). -/
def decryptWith (slow : SlowObj) (c a b : List Nat) : Option (List Nat) :=
  match slow.decrypt? with
  | some f => some (f c 2 a b)
  | none =>
    match slow.modeOfOperation? with
    | some m =>
      match m.decrypt? with
      | some g => some (g c 2 a b)
      | none => none
    | none => none

/-! ## URL model

A simplified model of the WHATWG `URL` class used by the retry construction.
It is not faithful on all strings (no percent-coding, no userinfo/port/
fragment handling, no non-`http(s)` schemes, no non-root relative
resolution), so every theorem below invokes it only on inputs where it
provably coincides with `new URL`/`URLSearchParams`: absolute URLs in the
`plainHttpURL` class (which excludes all of the divergent features by
construction), and colon-free url/base pairs, on which `new URL`
necessarily throws because no scheme can be present. -/

/-- Split a query string at `&`. -/
def splitOnAmp : List Char → List (List Char)
  | [] => [[]]
  | c :: rest =>
    if c = '&' then [] :: splitOnAmp rest
    else
      match splitOnAmp rest with
      | [] => [[c]]
      | p :: ps => (c :: p) :: ps

/-- Split one `key=value` piece at the first `=` (no `=` means empty value). -/
def splitKV (piece : List Char) : List Char × List Char :=
  (piece.takeWhile fun c => c != '=', (piece.dropWhile fun c => c != '=').drop 1)

/-- Decompose a raw query string into ordered key-value pairs, skipping
empty pieces, as `URLSearchParams` does.  No percent-decoding or `+`
handling: agrees with `URLSearchParams` exactly when every key and value
character is form-unreserved (`queryOkChar`), which the theorems require. -/
def parseQuery (q : List Char) : List (List Char × List Char) :=
  (splitOnAmp q).filterMap fun piece =>
    if piece.isEmpty then none else some (splitKV piece)

/-- A parsed URL: scheme, host, path and decomposed query parameters. -/
structure URLRec where
  scheme : List Char
  host : List Char
  path : List Char
  params : List (List Char × List Char)
deriving DecidableEq

/-- Parse an absolute `http`/`https` URL.  Returns `none` for every other
scheme and keeps userinfo/ports/fragments verbatim where `new URL`
normalises them, so theorems rely on it only under a `plainHttpURL`
hypothesis (where none of those features occur) or for colon-free strings
(where `new URL` also fails, since a scheme needs a colon). -/
def parseAbsURL (s : List Char) : Option URLRec :=
  (if startsWithL s "http://".toList then some ("http".toList, s.drop 7)
   else if startsWithL s "https://".toList then some ("https".toList, s.drop 8)
   else none).bind fun p =>
  let host := p.2.takeWhile fun c => c != '/' && c != '?' && c != '#'
  let after := p.2.dropWhile fun c => c != '/' && c != '?' && c != '#'
  if host.isEmpty then none
  else
    let path0 := after.takeWhile fun c => c != '?'
    let qraw := (after.dropWhile fun c => c != '?').drop 1
    some ⟨p.1, host, if path0.isEmpty then "/".toList else path0, parseQuery qraw⟩

/-- Models `new URL(url, base)` on the envelope the theorems use: an
absolute `url` stands alone (as in WHATWG); root-relative and empty
references resolve against an absolute base; everything else is reported as
a parse failure.  The last case diverges from WHATWG for non-root relative
references against a valid base, so the theorems assert the fallback branch
only when `url` and `base` are both colon-free — inputs on which the real
`new URL(url, base)` necessarily throws. -/
def parseJsURL (url base : List Char) : Option URLRec :=
  match parseAbsURL url with
  | some u => some u
  | none =>
    match parseAbsURL base with
    | none => none
    | some b =>
      match url with
      | [] => some b
      | '/' :: _ =>
        let path0 := url.takeWhile fun c => c != '?'
        let qraw := (url.dropWhile fun c => c != '?').drop 1
        some ⟨b.scheme, b.host, path0, parseQuery qraw⟩
      | _ => none

/-- Models `searchParams.set(k, v)`: overwrite the first entry named `k` and delete
the other entries named `k`; append when `k` is absent. -/
def setParam (ps : List (List Char × List Char)) (k v : List Char) :
    List (List Char × List Char) :=
  if ps.any fun p => p.1 == k then
    setParamAux ps k v
  else ps ++ [(k, v)]
where
  /-- Overwrite the first matching entry, dropping later duplicates. -/
  setParamAux : List (List Char × List Char) → List Char → List Char →
      List (List Char × List Char)
    | [], _, _ => []
    | p :: rest, k, v =>
      if p.1 == k then (p.1, v) :: rest.filter fun q => q.1 != k
      else p :: setParamAux rest k v

/-- Serialize ordered parameters as `k=v` pairs joined by `&`.  No
percent-encoding: agrees with `URLSearchParams.toString` exactly when every
key and value character is form-unreserved (`queryOkChar`), which the
theorems require. -/
def serializeParams : List (List Char × List Char) → List Char
  | [] => []
  | [p] => p.1 ++ '=' :: p.2
  | p :: q :: rest => p.1 ++ '=' :: p.2 ++ '&' :: serializeParams (q :: rest)

/-- Characters `URL` leaves untouched in a plain lowercase host (no
userinfo, port, IPv6 bracket, or uppercase that `url.host` would
normalise). -/
def hostOkChar (c : Char) : Bool :=
  c.isLower || c.isDigit || c == '.' || c == '-'

/-- Characters `URL` leaves untouched in a pathname (no percent-coding,
space, backslash, `?` or `#`). -/
def pathOkChar (c : Char) : Bool :=
  c.isAlphanum || c == '/' || c == '-' || c == '.' || c == '_' || c == '~'

/-- The form-unreserved characters, which `URLSearchParams` never encodes or
decodes (`application/x-www-form-urlencoded`: alphanumerics plus `*-._`). -/
def queryOkChar (c : Char) : Bool :=
  c.isAlphanum || c == '*' || c == '-' || c == '.' || c == '_'

/-- The class of absolute URLs on which this model coincides with WHATWG
`new URL`: lowercase `http(s)` scheme, a plain lowercase host with no
userinfo/port/brackets, a pathname without percent-coding, backslashes,
spaces or fragments, and a query whose keys and values are all
form-unreserved (so `URLSearchParams` round-trips them verbatim).  Every
feature the model does not normalise (fragments, userinfo, default ports,
percent-coding, exotic schemes, uppercase) is excluded here because its
characters are outside these character classes. -/
def plainHttpURL (u : List Char) : Bool :=
  match parseAbsURL u with
  | none => false
  | some r =>
    r.host.all hostOkChar && r.path.all pathOkChar &&
      r.params.all fun p => p.1.all queryOkChar && p.2.all queryOkChar

lemma bool_not_true {b : Bool} (h : ¬b = true) : b = false := by
  cases hb : b with
  | false => rfl
  | true => exact absurd hb h

lemma parseAbsURL_none_of_noColon (u : List Char) (h : ∀ c ∈ u, c ≠ ':') :
    parseAbsURL u = none := by
  have h1 : startsWithL u "http://".toList = false := by
    apply bool_not_true
    intro hs
    rw [startsWithL_iff] at hs
    rcases hs with ⟨t, ht⟩
    refine h ':' ?_ rfl
    rw [← ht]
    exact List.mem_append_left _ (by decide)
  have h2 : startsWithL u "https://".toList = false := by
    apply bool_not_true
    intro hs
    rw [startsWithL_iff] at hs
    rcases hs with ⟨t, ht⟩
    refine h ':' ?_ rfl
    rw [← ht]
    exact List.mem_append_left _ (by decide)
  unfold parseAbsURL
  rw [h1, h2]
  simp

/-- First-match association lookup (by key). -/
def assocLookup (h : List (List Char × List Char)) (k : List Char) :
    Option (List Char) :=
  (h.find? fun p => p.1 == k).map fun p => p.2

/-- The JavaScript object-spread override `{...h, k: v}`: replace the value
of an existing key in place, else append the key at the end. -/
def jsObjSet (h : List (List Char × List Char)) (k v : List Char) :
    List (List Char × List Char) :=
  if h.any fun p => p.1 == k then h.map fun p => if p.1 == k then (p.1, v) else p
  else h ++ [(k, v)]

/-- The `Could not determine base URL for slowAES loading` error. -/
def originErrMsg : List Char := "Could not determine base URL for slowAES loading".toList

/-- JavaScript truthiness of an optional string (absent or empty is falsy). -/
def strTruthy : Option (List Char) → Bool
  | none => false
  | some s => !s.isEmpty

/-- Models the origin resolution of `processCookieChallenge` (lines
138–155): the client's configured default base URL if truthy; else, when the
request has a truthy `url`, scheme+host of that URL if it parses as
absolute, else the request's own truthy `baseURL`; every other case throws
the origin-resolution error.  (When the request `url` is absent or empty the
guard `!baseURL && originalRequest.url` skips the whole block, so the
request's `baseURL` is never consulted.) -/
def resolveBaseURL (client : Client) (cfg : RequestConfig) :
    Except (List Char) (List Char) :=
  if strTruthy client.defaultsBaseURL then .ok (client.defaultsBaseURL.getD [])
  else
    match cfg.url with
    | some u =>
      if u.isEmpty then .error originErrMsg
      else
        match parseAbsURL u with
        | some pu => .ok (pu.scheme ++ "://".toList ++ pu.host)
        | none =>
          if strTruthy cfg.baseURL then .ok (cfg.baseURL.getD [])
          else .error originErrMsg
    | none => .error originErrMsg

/-- The retry construction (lines 180–200): `new URL(originalUrl, baseURL)`
with `searchParams.set('i', '1')`, serialized as `pathname + search`; naive
string concatenation with the correct separator when URL parsing fails.  The
headers are the object-spread of the original headers with the `Cookie` key
bound to exactly `__test=<cookieValue>`. -/
def buildRetryConfig (cfg : RequestConfig) (baseURL cookieValue : List Char) :
    RequestConfig :=
  let originalUrl := cfg.url.getD []
  let retryUrl :=
    match parseJsURL originalUrl baseURL with
    | some u =>
      let ps := setParam u.params "i".toList "1".toList
      u.path ++ '?' :: serializeParams ps
    | none =>
      originalUrl ++ (if originalUrl.contains '?' then "&i=1".toList else "?i=1".toList)
  { cfg with
    url := some retryUrl,
    headers := jsObjSet cfg.headers "Cookie".toList ("__test=".toList ++ cookieValue) }

/-- The string the pipeline reads as the challenge page body (`response.data`
when it is a string, else its JavaScript stringification). -/
def responseHtml (r : Response) : List Char :=
  match r.data? with
  | some (.str s) => s
  | some (.other a _) => a
  | none => "undefined".toList

/-- Models `processCookieChallenge(response, client)` (lines 128–206):
extract the three hex parameters, resolve the origin, load the crypto
routine, decrypt with mode 2, hex-encode the cookie value, build the retry
config, and issue the retry through the client.  The second component logs
the network calls issued. -/
def processCookieChallenge (client : Client) (response : Response) :
    Except (List Char) Response × List CallEv :=
  match extractEncryptedValues (responseHtml response) with
  | none => (.error "Could not extract encrypted values from challenge".toList, [])
  | some (ea, eb, ec) =>
    match resolveBaseURL client response.config with
    | .error e => (.error e, [])
    | .ok baseURL =>
      match loadSlowAES client baseURL with
      | (.error e, log) => (.error e, log)
      | (.ok slow, log) =>
        let a := toNumbers ea
        let b := toNumbers eb
        let c := toNumbers ec
        match decryptWith slow c a b with
        | none => (.error "slowAES.decrypt function not found".toList, log)
        | some decrypted =>
          let retryConfig :=
            buildRetryConfig response.config baseURL (toHex decrypted)
          (client.request retryConfig, log ++ [.request retryConfig])

/-! ## Orchestration: the interceptor (lines 215–237) and the error-path
handler of `createAxiosClient` (client.js lines 18–34) -/

/-- Models the handler returned by
`createCookieChallengeInterceptor(client, detectFn, processFn)`: identity on
non-challenges; on a detected challenge, delegate to `processFn` and return
its response, rethrowing its error after logging.  The second component logs
the network calls issued and the third records the responses `processFn` was
invoked on. -/
def createCookieChallengeInterceptor (client : Client)
    (detectFn : Option Response → Bool := detectCookieChallenge)
    (processFn : Client → Response → Except (List Char) Response × List CallEv :=
      processCookieChallenge)
    (response : Response) :
    Except (List Char) Response × List CallEv × List Response :=
  if detectFn (some response) then
    match processFn client response with
    | (res, log) => (res, log, [response])
  else (.ok response, [], [])

/-- A transport-layer error: the carried response (if any) and an opaque
payload identifying the error object. -/
structure AxiosError where
  response? : Option Response
  payload : List Char
deriving DecidableEq

/-- Models the error-path handler installed by `createAxiosClient`
(client.js lines 20–33): when the error carries a response, run the cookie
challenge interceptor on it and return its result, rejecting with the
original error if the interceptor throws; errors without a response are
re-raised unchanged. -/
def clientErrorHandler (client : Client) (error : AxiosError) :
    Except AxiosError Response × List CallEv × List Response :=
  match error.response? with
  | some resp =>
    match createCookieChallengeInterceptor client detectCookieChallenge
        processCookieChallenge resp with
    | (.ok r, log, solved) => (.ok r, log, solved)
    | (.error _, log, solved) => (.error error, log, solved)
  | none => (.error error, [], [])

/-! ## Branch lemmas for the solver and orchestrator -/

lemma interceptor_of_detect_false (client : Client)
    (detectFn : Option Response → Bool)
    (processFn : Client → Response → Except (List Char) Response × List CallEv)
    (resp : Response) (h : detectFn (some resp) = false) :
    createCookieChallengeInterceptor client detectFn processFn resp =
      (.ok resp, [], []) := by
  simp [createCookieChallengeInterceptor, h]

lemma interceptor_of_process (client : Client)
    (detectFn : Option Response → Bool)
    (processFn : Client → Response → Except (List Char) Response × List CallEv)
    (resp : Response) (res : Except (List Char) Response) (log : List CallEv)
    (hd : detectFn (some resp) = true) (hp : processFn client resp = (res, log)) :
    createCookieChallengeInterceptor client detectFn processFn resp =
      (res, log, [resp]) := by
  simp [createCookieChallengeInterceptor, hd, hp]

lemma process_extract_none (client : Client) (resp : Response)
    (hx : extractEncryptedValues (responseHtml resp) = none) :
    processCookieChallenge client resp =
      (.error "Could not extract encrypted values from challenge".toList, []) := by
  simp [processCookieChallenge, hx]

lemma process_resolve_err (client : Client) (resp : Response)
    (ea eb ec : List Char) (e : List Char)
    (hx : extractEncryptedValues (responseHtml resp) = some (ea, eb, ec))
    (hb : resolveBaseURL client resp.config = .error e) :
    processCookieChallenge client resp = (.error e, []) := by
  simp [processCookieChallenge, hx, hb]

lemma loadSlowAES_log (client : Client) (b : List Char) :
    (loadSlowAES client b).2 = [.getAes b] := rfl

lemma process_load_err (client : Client) (resp : Response)
    (ea eb ec : List Char) (bURL e : List Char) (log : List CallEv)
    (hx : extractEncryptedValues (responseHtml resp) = some (ea, eb, ec))
    (hb : resolveBaseURL client resp.config = .ok bURL)
    (hl : loadSlowAES client bURL = (.error e, log)) :
    processCookieChallenge client resp = (.error e, log) := by
  simp [processCookieChallenge, hx, hb, hl]

lemma process_no_decrypt (client : Client) (resp : Response)
    (ea eb ec : List Char) (bURL : List Char) (slow : SlowObj) (log : List CallEv)
    (hx : extractEncryptedValues (responseHtml resp) = some (ea, eb, ec))
    (hb : resolveBaseURL client resp.config = .ok bURL)
    (hl : loadSlowAES client bURL = (.ok slow, log))
    (hd : decryptWith slow (toNumbers ec) (toNumbers ea) (toNumbers eb) = none) :
    processCookieChallenge client resp =
      (.error "slowAES.decrypt function not found".toList, log) := by
  simp [processCookieChallenge, hx, hb, hl, hd]

lemma process_success (client : Client) (resp : Response)
    (ea eb ec : List Char) (bURL : List Char) (slow : SlowObj) (log : List CallEv)
    (d : List Nat)
    (hx : extractEncryptedValues (responseHtml resp) = some (ea, eb, ec))
    (hb : resolveBaseURL client resp.config = .ok bURL)
    (hl : loadSlowAES client bURL = (.ok slow, log))
    (hd : decryptWith slow (toNumbers ec) (toNumbers ea) (toNumbers eb) = some d) :
    processCookieChallenge client resp =
      (client.request (buildRetryConfig resp.config bURL (toHex d)),
        log ++ [.request (buildRetryConfig resp.config bURL (toHex d))]) := by
  simp [processCookieChallenge, hx, hb, hl, hd]

/-- C8.  A response the detector classifies negative passes through as the
very same response value, with no solver invocation and no network call. -/
theorem nonchallenge_passthrough :
    ∀ (client : Client) (detectFn : Option Response → Bool)
      (processFn : Client → Response → Except (List Char) Response × List CallEv)
      (resp : Response), detectFn (some resp) = false →
      createCookieChallengeInterceptor client detectFn processFn resp =
        (.ok resp, [], []) :=
  fun client detectFn processFn resp h =>
    interceptor_of_detect_false client detectFn processFn resp h

/-- C3.  A failed resolution of a detected challenge is rethrown by the
success-path interceptor, and makes the error-path handler reject with the
original transport error; neither path produces a success result. -/
theorem resolution_failure_propagates :
    (∀ (client : Client) (detectFn : Option Response → Bool)
      (processFn : Client → Response → Except (List Char) Response × List CallEv)
      (resp : Response) (e : List Char) (log : List CallEv),
      detectFn (some resp) = true → processFn client resp = (.error e, log) →
      (createCookieChallengeInterceptor client detectFn processFn resp).1 =
        .error e) ∧
    (∀ (client : Client) (error : AxiosError) (resp : Response) (e : List Char),
      error.response? = some resp →
      detectCookieChallenge (some resp) = true →
      (processCookieChallenge client resp).1 = .error e →
      (clientErrorHandler client error).1 = .error error) := by
  constructor
  · intro client detectFn processFn resp e log hd hp
    rw [interceptor_of_process client detectFn processFn resp _ _ hd hp]
  · intro client error resp e hr hd hp
    rcases hpp : processCookieChallenge client resp with ⟨res, log⟩
    rw [hpp] at hp
    simp only at hp
    subst hp
    unfold clientErrorHandler
    rw [hr]
    simp only [interceptor_of_process client detectCookieChallenge
      processCookieChallenge resp _ _ hd hpp]

/-- C10.  A transport error carrying a non-challenge response is converted
into a success carrying that response by the error-path handler. -/
theorem errorpath_nonchallenge_success :
    ∀ (client : Client) (error : AxiosError) (resp : Response),
      error.response? = some resp →
      detectCookieChallenge (some resp) = false →
      clientErrorHandler client error = (.ok resp, [], []) := by
  intro client error resp hr hd
  unfold clientErrorHandler
  rw [hr]
  simp only [interceptor_of_detect_false client detectCookieChallenge
    processCookieChallenge resp hd]

/-- Is an event a use of the client's generic request capability? -/
def isRequestEv : CallEv → Bool
  | .request _ => true
  | .getAes _ => false

/-- Number of retry requests issued in a call log. -/
def countRequests (log : List CallEv) : Nat := (log.filter isRequestEv).length

lemma process_requests_le_one (client : Client) (resp : Response) :
    countRequests (processCookieChallenge client resp).2 ≤ 1 := by
  rcases hx : extractEncryptedValues (responseHtml resp) with - | ⟨ea, eb, ec⟩
  · rw [process_extract_none client resp hx]
    simp [countRequests]
  rcases hb : resolveBaseURL client resp.config with e | bURL
  · rw [process_resolve_err client resp ea eb ec e hx hb]
    simp [countRequests]
  have hl2 : loadSlowAES client bURL =
      ((loadSlowAES client bURL).1, [.getAes bURL]) := rfl
  rcases hl1 : (loadSlowAES client bURL).1 with e | slow
  · rw [process_load_err client resp ea eb ec bURL e [.getAes bURL] hx hb
      (by rw [hl2, hl1])]
    simp [countRequests, isRequestEv]
  rcases hd : decryptWith slow (toNumbers ec) (toNumbers ea) (toNumbers eb) with - | d
  · rw [process_no_decrypt client resp ea eb ec bURL slow [.getAes bURL] hx hb
      (by rw [hl2, hl1]) hd]
    simp [countRequests, isRequestEv]
  · rw [process_success client resp ea eb ec bURL slow [.getAes bURL] d hx hb
      (by rw [hl2, hl1]) hd]
    simp [countRequests, isRequestEv]

/-- C9.  The pipeline issues the retry at most once, and when the retried
response is itself a challenge page it is returned to the caller as an
ordinary successful response, not resolved again. -/
theorem retry_at_most_once :
    (∀ (client : Client) (resp : Response),
      countRequests (processCookieChallenge client resp).2 ≤ 1) ∧
    (∀ (client : Client) (resp r : Response) (log : List CallEv),
      detectCookieChallenge (some resp) = true →
      processCookieChallenge client resp = (.ok r, log) →
      detectCookieChallenge (some r) = true →
      createCookieChallengeInterceptor client detectCookieChallenge
        processCookieChallenge resp = (.ok r, log, [resp])) :=
  ⟨process_requests_le_one,
   fun client resp r log hd hp _ =>
    interceptor_of_process client detectCookieChallenge processCookieChallenge
      resp _ _ hd hp⟩

/-- C4 (amended).  Origin resolution prefers a truthy client default origin;
else, for a nonempty request URL that is a plain absolute `http(s)` URL,
its scheme+host; else — only when the request URL is nonempty and cannot be
an absolute URL (it contains no colon, so `new URL` throws) — a truthy
request-level base; when the default origin is falsy and the request URL is
absent, empty, or colon-free with a falsy request base, the solver fails
with the origin-resolution error before issuing any network call (the
request-level base is never consulted when the URL is absent or empty). -/
theorem origin_resolution_order :
    (∀ (client : Client) (cfg : RequestConfig) (b : List Char),
      client.defaultsBaseURL = some b → b ≠ [] →
      resolveBaseURL client cfg = .ok b) ∧
    (∀ (client : Client) (cfg : RequestConfig) (u : List Char) (pu : URLRec),
      strTruthy client.defaultsBaseURL = false →
      cfg.url = some u → u ≠ [] →
      plainHttpURL u = true → parseAbsURL u = some pu →
      resolveBaseURL client cfg = .ok (pu.scheme ++ "://".toList ++ pu.host)) ∧
    (∀ (client : Client) (cfg : RequestConfig) (u rb : List Char),
      strTruthy client.defaultsBaseURL = false →
      cfg.url = some u → u ≠ [] → (∀ c ∈ u, c ≠ ':') →
      cfg.baseURL = some rb → rb ≠ [] →
      resolveBaseURL client cfg = .ok rb) ∧
    (∀ (client : Client) (resp : Response)
      (t : List Char × List Char × List Char),
      strTruthy client.defaultsBaseURL = false →
      extractEncryptedValues (responseHtml resp) = some t →
      (resp.config.url = none ∨ resp.config.url = some [] ∨
        (∃ u, resp.config.url = some u ∧ (∀ c ∈ u, c ≠ ':') ∧
          strTruthy resp.config.baseURL = false)) →
      processCookieChallenge client resp = (.error originErrMsg, [])) := by
  refine ⟨?_, ?_, ?_, ?_⟩
  · intro client cfg b hb hne
    unfold resolveBaseURL
    rw [hb]
    simp [strTruthy, hne]
  · intro client cfg u pu hdef hu hne hplain hp
    unfold resolveBaseURL
    rw [hdef, hu]
    simp [List.isEmpty_iff, hne, hp]
  · intro client cfg u rb hdef hu hne hcolon hrb hrbne
    have hp : parseAbsURL u = none := parseAbsURL_none_of_noColon u hcolon
    unfold resolveBaseURL
    rw [hdef, hu]
    simp [List.isEmpty_iff, hne, hp, hrb, strTruthy, hrbne]
  · intro client resp t hdef hx hurl
    have hres : resolveBaseURL client resp.config = .error originErrMsg := by
      unfold resolveBaseURL
      rw [hdef, if_neg (by simp)]
      rcases hurl with h | h | ⟨u, hu, hcolon, hrb⟩
      · rw [h]
      · rw [h]
        simp
      · have hpu : parseAbsURL u = none := parseAbsURL_none_of_noColon u hcolon
        rw [hu]
        simp [hpu, hrb]
    rcases t with ⟨ea, eb, ec⟩
    exact process_resolve_err client resp ea eb ec originErrMsg hx hres

lemma decryptWith_none (slow : SlowObj) (c a b : List Nat)
    (h : usableCrypto slow = false) : decryptWith slow c a b = none := by
  rcases hdc : slow.decrypt? with - | f
  · rcases hm : slow.modeOfOperation? with - | m
    · simp [decryptWith, hdc, hm]
    · rcases hg : m.decrypt? with - | g
      · simp [decryptWith, hdc, hm, hg]
      · exfalso
        simp [usableCrypto, hdc, hm, hg] at h
  · exfalso
    simp [usableCrypto, hdc] at h

/-- C5 (amended).  The loader fails with `Failed to load slowAES: …` exactly
when the fetch or the evaluation of the script fails; when the evaluated
object has a direct `decrypt` function it is returned; otherwise the loader
returns the parameter object (empty unless the script mutated it) without
error, even when the script's object only carries a nested
`modeOfOperation.decrypt`, and a loaded object that is unusable under both
shapes surfaces later in the solver as `slowAES.decrypt function not
found`. -/
theorem crypto_loader_behavior :
    (∀ (client : Client) (baseURL e : List Char),
      client.getScript baseURL = .error e →
      loadSlowAES client baseURL =
        (.error ("Failed to load slowAES: ".toList ++ e), [.getAes baseURL])) ∧
    (∀ (client : Client) (baseURL : List Char) (script : Script) (e : List Char),
      client.getScript baseURL = .ok script → script.runResult = .error e →
      loadSlowAES client baseURL =
        (.error ("Failed to load slowAES: ".toList ++ e), [.getAes baseURL])) ∧
    (∀ (client : Client) (baseURL : List Char) (script : Script) (result : SlowObj),
      client.getScript baseURL = .ok script → script.runResult = .ok result →
      result.decrypt?.isSome = true →
      loadSlowAES client baseURL = (.ok result, [.getAes baseURL])) ∧
    (∀ (client : Client) (baseURL : List Char) (script : Script) (result : SlowObj),
      client.getScript baseURL = .ok script → script.runResult = .ok result →
      result.decrypt?.isSome = false →
      loadSlowAES client baseURL = (.ok script.paramAfter, [.getAes baseURL])) ∧
    (∀ (client : Client) (resp : Response) (ea eb ec bURL : List Char)
      (slow : SlowObj) (log : List CallEv),
      extractEncryptedValues (responseHtml resp) = some (ea, eb, ec) →
      resolveBaseURL client resp.config = .ok bURL →
      loadSlowAES client bURL = (.ok slow, log) →
      usableCrypto slow = false →
      processCookieChallenge client resp =
        (.error "slowAES.decrypt function not found".toList, log)) := by
  refine ⟨?_, ?_, ?_, ?_, ?_⟩
  · intro client baseURL e h
    simp [loadSlowAES, h]
  · intro client baseURL script e h hr
    simp [loadSlowAES, h, hr]
  · intro client baseURL script result h hr hd
    simp [loadSlowAES, h, hr, hd]
  · intro client baseURL script result h hr hd
    simp [loadSlowAES, h, hr, hd]
  · intro client resp ea eb ec bURL slow log hx hb hl hu
    exact process_no_decrypt client resp ea eb ec bURL slow log hx hb hl
      (decryptWith_none slow _ _ _ hu)

/-- A stub decrypt capability (returns its ciphertext argument). -/
def stubDec : DecFn := fun c _ _ _ => c

/-- A script declaring its own object with only a nested
`modeOfOperation.decrypt` capability (the usual `var slowAES = …` script
shape, which leaves the loader's parameter object untouched). -/
def nestedOnlyObj : SlowObj := ⟨none, some ⟨some stubDec⟩⟩

/-- The fetched script carrying `nestedOnlyObj`. -/
def nestedScript : Script := ⟨.ok nestedOnlyObj, emptySlowObj⟩

/-- A client whose `/aes.js` serves `nestedScript`. -/
def nestedClient : Client := ⟨none, fun _ => .ok nestedScript, fun _ => .error []⟩

/-- A script evaluating to an object with no decrypt capability at all. -/
def noDecryptScript : Script := ⟨.ok emptySlowObj, emptySlowObj⟩

/-- A client whose `/aes.js` serves `noDecryptScript`. -/
def noDecryptClient : Client := ⟨none, fun _ => .ok noDecryptScript, fun _ => .error []⟩

/-- Counterexample to C5 as stated: a fetched script whose resulting object
exposes `decrypt` only under `modeOfOperation` loads to the *empty* parameter
object (a non-usable routine, returned without any error), and a script with
no usable decrypt capability under either shape also loads without a
`CryptoLoadError` — the loader returns `.ok` in both cases. -/
theorem crypto_loader_counterexample :
    usableCrypto nestedOnlyObj = true ∧
    (loadSlowAES nestedClient "http://h".toList).1 = .ok emptySlowObj ∧
    usableCrypto emptySlowObj = false ∧
    (loadSlowAES noDecryptClient "http://h".toList).1 = .ok emptySlowObj :=
  ⟨rfl, rfl, rfl, rfl⟩

/-! ## Lookup lemmas for headers and query parameters -/

lemma assocLookup_nil (k : List Char) : assocLookup [] k = none := rfl

instance {ε α : Type} [DecidableEq ε] [DecidableEq α] : DecidableEq (Except ε α) :=
  fun x y =>
    match x, y with
    | .ok a, .ok b =>
      if h : a = b then .isTrue (by rw [h])
      else .isFalse (by intro hc; injection hc with h2; exact h h2)
    | .ok _, .error _ => .isFalse fun hc => Except.noConfusion hc
    | .error _, .ok _ => .isFalse fun hc => Except.noConfusion hc
    | .error e, .error f =>
      if h : e = f then .isTrue (by rw [h])
      else .isFalse (by intro hc; injection hc with h2; exact h h2)

/-! ## Concrete instances: counterexamples and witnesses -/

/-- A decrypt capability returning the fixed byte `0xab`. -/
def constDec : DecFn := fun _ _ _ _ => [171]

/-- A script whose object has a direct decrypt returning `0xab`. -/
def constScript : Script := ⟨.ok ⟨some constDec, none⟩, emptySlowObj⟩

/-- An original request carrying a Cookie header and a query parameter. -/
def cookieReq : RequestConfig :=
  ⟨some "/p?i=0".toList, none, some "GET".toList,
    [("Cookie".toList, "foo=bar".toList)], none⟩

/-- A concrete comma-joined challenge body. -/
def cookieChallengeBody : List Char :=
  singleBody "aa".toList "bb".toList "cc".toList

/-- The challenge response carrying `cookieReq`. -/
def cookieResp : Response := ⟨some (.str cookieChallengeBody), cookieReq⟩

/-- A request with no URL but a configured request-level base. -/
def noOriginCfg : RequestConfig :=
  ⟨none, some "http://fallback.example".toList, some "GET".toList, [], none⟩

/-- The challenge response carrying `noOriginCfg`. -/
def noOriginResp : Response := ⟨some (.str cookieChallengeBody), noOriginCfg⟩

/-- A client with no configured default base URL. -/
def noDefaultClient : Client :=
  ⟨none, fun _ => .ok constScript, fun _ => .ok cookieResp⟩

/-- Counterexample to C4 as stated: with no default origin and no request
URL, the request's own configured base (a perfectly resolvable absolute URL)
is never consulted — the solver fails with the origin-resolution error. -/
theorem origin_resolution_counterexample :
    noOriginResp.config.url = none ∧
    noOriginResp.config.baseURL = some "http://fallback.example".toList ∧
    parseAbsURL "http://fallback.example".toList =
      some ⟨"http".toList, "fallback.example".toList, "/".toList, []⟩ ∧
    processCookieChallenge noDefaultClient noOriginResp =
      (.error originErrMsg, []) := by
  exact ⟨rfl, rfl, by decide, by decide⟩

/-- A client configured with an absolute default base URL. -/
def defClient : Client :=
  ⟨some "http://d.example".toList, fun _ => .error [], fun _ => .error []⟩

/-- A request with an absolute URL. -/
def absCfg : RequestConfig :=
  ⟨some "http://h.example/p".toList, none, none, [], none⟩

/-- A request with a root-relative URL and a request-level base. -/
def relCfg : RequestConfig :=
  ⟨some "/p".toList, some "http://rb.example".toList, none, [], none⟩

/-- Witness for C4 (amended): the three resolution preferences at concrete
requests, and the no-network failure at `noOriginResp`. -/
theorem origin_resolution_order_witness :
    resolveBaseURL defClient absCfg = .ok "http://d.example".toList ∧
    resolveBaseURL noDefaultClient absCfg = .ok "http://h.example".toList ∧
    resolveBaseURL noDefaultClient relCfg = .ok "http://rb.example".toList ∧
    processCookieChallenge noDefaultClient noOriginResp =
      (.error originErrMsg, []) :=
  ⟨origin_resolution_order.1 defClient absCfg "http://d.example".toList rfl
     (by decide),
   origin_resolution_order.2.1 noDefaultClient absCfg "http://h.example/p".toList
     ⟨"http".toList, "h.example".toList, "/p".toList, []⟩ rfl rfl (by decide)
     (by decide) (by decide),
   origin_resolution_order.2.2.1 noDefaultClient relCfg "/p".toList
     "http://rb.example".toList rfl rfl (by decide) (by decide) rfl (by decide),
   origin_resolution_order.2.2.2 noDefaultClient noOriginResp
     ("aa".toList, "bb".toList, "cc".toList) rfl (by decide)
     (Or.inl rfl)⟩

/-- A client whose script fetch fails. -/
def fetchErrClient : Client :=
  ⟨none, fun _ => .error "boom".toList, fun _ => .error []⟩

/-- A client serving `constScript` (direct decrypt). -/
def directClient : Client :=
  ⟨none, fun _ => .ok constScript, fun _ => .error []⟩

/-- A client with a default origin whose script has no decrypt capability. -/
def noDecryptOriginClient : Client :=
  ⟨some "http://h.example".toList, fun _ => .ok noDecryptScript, fun _ => .error []⟩

/-- The challenge response used against `noDecryptOriginClient`. -/
def noDecryptResp : Response :=
  ⟨some (.str cookieChallengeBody), ⟨some "/p".toList, none, none, [], none⟩⟩

/-- Witness for C5 (amended) at concrete clients: a failed fetch wraps the
cause, a direct-decrypt script is returned, a decrypt-less script yields the
empty parameter object without error, and the unusable object then fails the
solver with the decrypt-not-found error. -/
theorem crypto_loader_behavior_witness :
    loadSlowAES fetchErrClient "http://h".toList =
      (.error ("Failed to load slowAES: ".toList ++ "boom".toList),
        [.getAes "http://h".toList]) ∧
    loadSlowAES directClient "http://h".toList =
      (.ok ⟨some constDec, none⟩, [.getAes "http://h".toList]) ∧
    loadSlowAES noDecryptOriginClient "http://h".toList =
      (.ok emptySlowObj, [.getAes "http://h".toList]) ∧
    processCookieChallenge noDecryptOriginClient noDecryptResp =
      (.error "slowAES.decrypt function not found".toList,
        [.getAes "http://h.example".toList]) :=
  ⟨crypto_loader_behavior.1 fetchErrClient "http://h".toList "boom".toList rfl,
   crypto_loader_behavior.2.2.1 directClient "http://h".toList constScript
     ⟨some constDec, none⟩ rfl rfl rfl,
   crypto_loader_behavior.2.2.2.1 noDecryptOriginClient "http://h".toList
     noDecryptScript emptySlowObj rfl rfl rfl,
   crypto_loader_behavior.2.2.2.2 noDecryptOriginClient noDecryptResp
     "aa".toList "bb".toList "cc".toList "http://h.example".toList
     emptySlowObj [.getAes "http://h.example".toList]
     (by decide) (by decide) rfl rfl⟩

/-- A client with no usable capabilities at all. -/
def stubClient : Client := ⟨none, fun _ => .error [], fun _ => .error []⟩

/-- A body carrying all four detection markers but no declarations. -/
def badChalBody : List Char :=
  "slowAES.decrypt __test= location.href /aes.js".toList

/-- A detected challenge whose resolution fails at extraction. -/
def badChalResp : Response := ⟨some (.str badChalBody), cookieReq⟩

/-- Witness for C3 at a concrete failing resolution: the success-path
interceptor surfaces the extraction error, and the error-path handler
rejects with the original transport error. -/
theorem resolution_failure_propagates_witness :
    (createCookieChallengeInterceptor stubClient detectCookieChallenge
      processCookieChallenge badChalResp).1 =
        .error "Could not extract encrypted values from challenge".toList ∧
    (clientErrorHandler stubClient ⟨some badChalResp, "E".toList⟩).1 =
      .error ⟨some badChalResp, "E".toList⟩ :=
  ⟨resolution_failure_propagates.1 stubClient detectCookieChallenge
     processCookieChallenge badChalResp
     "Could not extract encrypted values from challenge".toList [] (by decide)
     (by decide),
   resolution_failure_propagates.2 stubClient ⟨some badChalResp, "E".toList⟩
     badChalResp "Could not extract encrypted values from challenge".toList rfl
     (by decide) (by decide)⟩

/-- A plain non-challenge response. -/
def plainResp : Response :=
  ⟨some (.str "<html>hello</html>".toList), ⟨none, none, none, [], none⟩⟩

/-- Witness for C8 at a concrete non-challenge response. -/
theorem nonchallenge_passthrough_witness :
    detectCookieChallenge (some plainResp) = false ∧
    createCookieChallengeInterceptor stubClient detectCookieChallenge
      processCookieChallenge plainResp = (.ok plainResp, [], []) :=
  ⟨by decide,
   nonchallenge_passthrough stubClient detectCookieChallenge
     processCookieChallenge plainResp (by decide)⟩

/-- Witness for C10 at a concrete error carrying a non-challenge response. -/
theorem errorpath_nonchallenge_success_witness :
    clientErrorHandler stubClient ⟨some plainResp, "E".toList⟩ =
      (.ok plainResp, [], []) :=
  errorpath_nonchallenge_success stubClient ⟨some plainResp, "E".toList⟩
    plainResp rfl (by decide)

/-- A challenge body that also carries the four detection markers. -/
def loopBody : List Char :=
  cookieChallengeBody ++ " slowAES.decrypt __test= location.href /aes.js".toList

/-- The request of the looping challenge scenario. -/
def loopCfg : RequestConfig :=
  ⟨some "http://h.example/p".toList, none, some "GET".toList, [], none⟩

/-- A challenge response whose retry yields itself again. -/
def loopResp : Response := ⟨some (.str loopBody), loopCfg⟩

/-- A client that answers every retry with the same challenge page. -/
def loopClient : Client :=
  ⟨some "http://h.example".toList, fun _ => .ok constScript, fun _ => .ok loopResp⟩

/-- Witness for C9: even against a server that answers the retry with the
same challenge page, the pipeline issues one request and returns that
challenge page as an ordinary response. -/
theorem retry_at_most_once_witness :
    countRequests (processCookieChallenge loopClient loopResp).2 ≤ 1 ∧
    createCookieChallengeInterceptor loopClient detectCookieChallenge
      processCookieChallenge loopResp =
      (.ok loopResp,
        [.getAes "http://h.example".toList,
          .request (buildRetryConfig loopCfg "http://h.example".toList
            "ab".toList)], [loopResp]) :=
  ⟨retry_at_most_once.1 loopClient loopResp,
   retry_at_most_once.2 loopClient loopResp loopResp
     [.getAes "http://h.example".toList,
       .request (buildRetryConfig loopCfg "http://h.example".toList "ab".toList)]
     (by decide) (by decide) (by decide)⟩

end CookieChallenge
